import Mathlib

/-!
Shallow embedding of the KPI-derivation-and-scoring core of
`src/app.py` (manufacturing diagnostic app).

Conventions of the embedding:
* A numeric cell already coerced by `pd.to_numeric(..., errors="coerce")`
  is an `Option ℚ` (`none` = NaN, i.e. unparseable).
* A mapped column is a `List (Option ℚ)`; a role selector is an
  `Option (List (Option ℚ))` where `none` models the `"(없음)"` (unset)
  sentinel.
* Dates are day numbers `ℤ`; a date cell coerced by `pd.to_datetime`
  is `Option ℤ`.
* Python `None` results become `Option.none`.
-/

namespace App

/-- `safe_sum(df, col)`: `None` if the column is unset, else the sum of the
coerced values with NaN filled by 0 (`to_num(df[col]).fillna(0).sum()`). -/
def safe_sum (col : Option (List (Option ℚ))) : Option ℚ :=
  match col with
  | none => none
  | some xs => some ((xs.map (fun c => c.getD 0)).sum)

/-- `safe_mean(df, col)`: `None` if the column is unset; drop NaN cells; if
nothing remains return `None`, else the mean of the remaining values. -/
def safe_mean (col : Option (List (Option ℚ))) : Option ℚ :=
  match col with
  | none => none
  | some xs =>
    let x := xs.filterMap id
    if x = [] then none else some (x.sum / (x.length : ℚ))

/-- `safe_ratio(n, d)`: `None` if `n is None or d in [None, 0]`, else `n / d`. -/
def safe_ratio (n d : Option ℚ) : Option ℚ :=
  match n, d with
  | some a, some b => if b = 0 then none else some (a / b)
  | _, _ => none

/-- `score_by_threshold(value, good, warn)`: higher-is-better scorer.
`None` propagates; `value >= good → 100`; `value >= warn → 70`; else `40`. -/
def score_by_threshold (value : Option ℚ) (good warn : ℚ) : Option ℚ :=
  match value with
  | none => none
  | some v => if good ≤ v then some 100 else if warn ≤ v then some 70 else some 40

/-- `score_by_inverse_threshold(value, good, warn)`: lower-is-better scorer.
`None` propagates; `value <= good → 100`; `value <= warn → 70`; else `40`. -/
def score_by_inverse_threshold (value : Option ℚ) (good warn : ℚ) : Option ℚ :=
  match value with
  | none => none
  | some v => if v ≤ good then some 100 else if v ≤ warn then some 70 else some 40

/-- `gross = None if (sales is None or cogs is None) else (sales - cogs)`. -/
def gross (sales cogs : Option ℚ) : Option ℚ :=
  match sales, cogs with
  | some s, some c => some (s - c)
  | _, _ => none

/-- `gross_margin = safe_ratio(gross, sales)`. -/
def gross_margin (sales cogs : Option ℚ) : Option ℚ :=
  safe_ratio (gross sales cogs) sales

/-- `op_profit`: `None` unless `sales` is available; starting from `sales`,
each of `cogs`, `fixed`, `labor` that is available is subtracted (an
unavailable component is simply skipped, i.e. treated as 0). -/
def op_profit (sales cogs fixed labor : Option ℚ) : Option ℚ :=
  match sales with
  | none => none
  | some s =>
    let p1 := match cogs with | some c => s - c | none => s
    let p2 := match fixed with | some f => p1 - f | none => p1
    let p3 := match labor with | some l => p2 - l | none => p2
    some p3

/-- `op_margin = safe_ratio(op_profit, sales)`. -/
def op_margin (sales cogs fixed labor : Option ℚ) : Option ℚ :=
  safe_ratio (op_profit sales cogs fixed labor) sales

/-- The rows of the due/ship columns where both dates parsed
(`valid = due.notna() & ship.notna()`), as (due, ship) pairs. -/
def validPairs (due ship : List (Option ℤ)) : List (ℤ × ℤ) :=
  (due.zip ship).filterMap
    (fun p => match p.1, p.2 with
      | some d, some s => some (d, s)
      | _, _ => none)

/-- `on_time_rate`: `None` unless both date columns are mapped; parse both,
keep rows where both parse; if any remain, the mean of the indicator
`ship <= due` over those rows, else `None`. -/
def on_time_rate (dueCol shipCol : Option (List (Option ℤ))) : Option ℚ :=
  match dueCol, shipCol with
  | some due, some ship =>
    let valid := validPairs due ship
    if valid = [] then none
    else some ((((valid.filter (fun p => p.2 ≤ p.1)).length : ℚ)) / (valid.length : ℚ))
  | _, _ => none

/-- `inventory_value`: `None` unless both columns are mapped; else
`(to_num(inv).fillna(0) * to_num(uc).fillna(0)).sum()` row-wise. -/
def inventory_value (invCol ucCol : Option (List (Option ℚ))) : Option ℚ :=
  match invCol, ucCol with
  | some inv, some uc =>
    some (((inv.zip uc).map (fun p => p.1.getD 0 * p.2.getD 0)).sum)
  | _, _ => none

/-- `score_inv = score_by_inverse_threshold(inv_to_sales, 0.15, 0.30) if
inv_to_sales is not None else None`. -/
def score_inv_of (inv_to_sales : Option ℚ) : Option ℚ :=
  match inv_to_sales with
  | none => none
  | some v => score_by_inverse_threshold (some v) (15/100) (30/100)

/-- The `scores` dict zipped against the `weights` dict (same six keys, in
the shared insertion order; weights 0.22, 0.22, 0.18, 0.18, 0.12, 0.08). -/
def score_weight_pairs (s_gm s_om s_def s_yield s_otd s_inv : Option ℚ) :
    List (Option ℚ × ℚ) :=
  [(s_gm, 22/100), (s_om, 22/100), (s_def, 18/100),
   (s_yield, 18/100), (s_otd, 12/100), (s_inv, 8/100)]

/-- `weighted_items = [(k, v, weights[k]) for k, v in scores.items() if v is
not None]` (the key is dropped: it plays no role in the arithmetic). -/
def weighted_items (pairs : List (Option ℚ × ℚ)) : List (ℚ × ℚ) :=
  pairs.filterMap (fun p => p.1.map (fun v => (v, p.2)))

/-- `total_score = None` when `weighted_items` is empty, else
`sum(v*w) / sum(w)` over the items. -/
def total_score_of (items : List (ℚ × ℚ)) : Option ℚ :=
  if items = [] then none
  else some ((items.map (fun p => p.1 * p.2)).sum / (items.map (fun p => p.2)).sum)

/-- The composite score of the six KPI scores. -/
def total_score (s_gm s_om s_def s_yield s_otd s_inv : Option ℚ) : Option ℚ :=
  total_score_of (weighted_items (score_weight_pairs s_gm s_om s_def s_yield s_otd s_inv))

/-- The Python condition `x is not None and x < c` as a boolean. -/
def fires_lt (x : Option ℚ) (c : ℚ) : Bool :=
  match x with
  | some v => v < c
  | none => false

/-- The Python condition `x is not None and x > c` as a boolean. -/
def fires_gt (x : Option ℚ) (c : ℚ) : Bool :=
  match x with
  | some v => c < v
  | none => false

/-- Tip text of the `gross_margin < 0.15` rule. -/
def tip_gross_margin : String :=
  "원가 구조(재료비/외주/불량)와 납품단가 재협상, 제품 믹스 개선이 우선입니다."

/-- Tip text of the `op_margin < 0.05` rule. -/
def tip_op_margin : String :=
  "고정비·인건비 구조(간접인력, 잔업, 라인밸런싱)를 점검하고 손익분기점을 낮춰야 합니다."

/-- Fallback tip of the profitability block. -/
def tip_profit_ok : String :=
  "수익성 지표는 양호합니다. 다음 단계로 제품별/고객별 손익분석을 권장합니다."

/-- Tip text of the `defect_rate > 0.03` rule. -/
def tip_defect : String :=
  "불량 TOP 원인(공정/설비/작업자/자재) 파레토 분석 후, 표준작업/검사기준/공정능력 개선이 필요합니다."

/-- Tip text of the `yield_rate < 0.95` rule. -/
def tip_yield : String :=
  "수율 저하는 재작업/스크랩 비용을 키웁니다. 공정조건 관리와 초도품 관리 체계를 점검하세요."

/-- Fallback tip of the quality block. -/
def tip_quality_ok : String :=
  "품질 지표는 양호합니다. 다음 단계로 공정별 불량/라인별 수율로 분해 분석을 권장합니다."

/-- Tip text of the `on_time_rate < 0.90` rule. -/
def tip_otd : String :=
  "납기 지연은 신뢰/패널티로 이어집니다. 병목공정, 외주 리드타임, 자재수급(안전재고)부터 점검하세요."

/-- Tip text of the `inv_to_sales > 0.30` rule. -/
def tip_inventory : String :=
  "재고가 매출 대비 과다합니다. 회전율 관리(ABC, 적정재고)와 생산계획 정확도 개선이 필요합니다."

/-- Fallback tip of the delivery/inventory block. -/
def tip_delivery_ok : String :=
  "납기/재고 지표는 양호합니다. 다음 단계로 품목별 재고회전/납기지연 원인코드 분석을 권장합니다."

/-- The profitability tip block: each firing rule appends its tip; if none
fired, the fixed positive tip is emitted instead. -/
def tips_profitability (gross_margin op_margin : Option ℚ) : List String :=
  let tips :=
    (if fires_lt gross_margin (15/100) then [tip_gross_margin] else []) ++
    (if fires_lt op_margin (5/100) then [tip_op_margin] else [])
  if tips = [] then [tip_profit_ok] else tips

/-- The quality tip block. -/
def tips_quality (defect_rate yield_rate : Option ℚ) : List String :=
  let tips :=
    (if fires_gt defect_rate (3/100) then [tip_defect] else []) ++
    (if fires_lt yield_rate (95/100) then [tip_yield] else [])
  if tips = [] then [tip_quality_ok] else tips

/-- The delivery/inventory tip block. -/
def tips_delivery (on_time_rate inv_to_sales : Option ℚ) : List String :=
  let tips :=
    (if fires_lt on_time_rate (90/100) then [tip_otd] else []) ++
    (if fires_gt inv_to_sales (30/100) then [tip_inventory] else [])
  if tips = [] then [tip_delivery_ok] else tips

/-- The value of one entry of a pandas float Series obtained by dividing two
float Series: a finite number, a signed infinity, or NaN.  Dividing exact
(integer-valued) floats cannot round, so the finite case carries an exact
rational. -/
inductive PdVal where
  | num : ℚ → PdVal
  | inf : PdVal
  | ninf : PdVal
  | nan : PdVal
deriving DecidableEq

/-- IEEE-754 division of two exact values as pandas performs it element-wise:
`x / 0` is `+inf` for `x > 0`, `-inf` for `x < 0`, NaN for `0 / 0`. -/
def pdDiv (x y : ℚ) : PdVal :=
  if y = 0 then
    if 0 < x then PdVal.inf else if x < 0 then PdVal.ninf else PdVal.nan
  else PdVal.num (x / y)

/-- `groupby(key).sum()` over a three-column frame (key, a, b): the pair of
per-group sums for group `k`, with NaN cells skipped (i.e. contributing 0). -/
def group_sum2 (rows : List (String × Option ℚ × Option ℚ)) (k : String) : ℚ × ℚ :=
  rows.foldl
    (fun acc r => if r.1 = k then (acc.1 + r.2.1.getD 0, acc.2 + r.2.2.getD 0) else acc)
    (0, 0)

/-- Breakdown by item: rows are (품목, 생산, 불량) = (item, produced, defect);
per-group 불량률 = 불량 / 생산 by plain pandas division. -/
def defect_rate_by_item (rows : List (String × Option ℚ × Option ℚ)) (k : String) : PdVal :=
  let s := group_sum2 rows k
  pdDiv s.2 s.1

/-- Breakdown by line: rows are (라인, 양품, 생산) = (line, good, produced);
per-group 수율 = 양품 / 생산 by plain pandas division. -/
def yield_by_line (rows : List (String × Option ℚ × Option ℚ)) (k : String) : PdVal :=
  let s := group_sum2 rows k
  pdDiv s.1 s.2

/-! ### Helper lemmas about the composite aggregator -/

lemma total_score_of_eq_none (items : List (ℚ × ℚ)) :
    total_score_of items = none ↔ items = [] := by
  unfold total_score_of
  split <;> simp_all

lemma exists_min_mem (l : List ℚ) (h : l ≠ []) : ∃ m ∈ l, ∀ v ∈ l, m ≤ v := by
  induction l with
  | nil => exact absurd rfl h
  | cons a t ih =>
    cases t with
    | nil => exact ⟨a, by simp, by simp⟩
    | cons b u =>
      obtain ⟨m, hm, hle⟩ := ih (by simp)
      rcases le_total a m with hca | hca
      · refine ⟨a, by simp, fun v hv => ?_⟩
        rcases List.mem_cons.mp hv with rfl | hv
        · exact le_refl v
        · exact le_trans hca (hle v hv)
      · refine ⟨m, List.mem_cons_of_mem _ hm, fun v hv => ?_⟩
        rcases List.mem_cons.mp hv with rfl | hv
        · exact hca
        · exact hle v hv

lemma exists_max_mem (l : List ℚ) (h : l ≠ []) : ∃ M ∈ l, ∀ v ∈ l, v ≤ M := by
  induction l with
  | nil => exact absurd rfl h
  | cons a t ih =>
    cases t with
    | nil => exact ⟨a, by simp, by simp⟩
    | cons b u =>
      obtain ⟨M, hM, hle⟩ := ih (by simp)
      rcases le_total a M with hca | hca
      · refine ⟨M, List.mem_cons_of_mem _ hM, fun v hv => ?_⟩
        rcases List.mem_cons.mp hv with rfl | hv
        · exact hca
        · exact hle v hv
      · refine ⟨a, by simp, fun v hv => ?_⟩
        rcases List.mem_cons.mp hv with rfl | hv
        · exact le_refl v
        · exact le_trans (hle v hv) hca

lemma sum_map_mul_le (items : List (ℚ × ℚ)) (M : ℚ)
    (hw : ∀ p ∈ items, 0 ≤ p.2) (hv : ∀ p ∈ items, p.1 ≤ M) :
    (items.map (fun p => p.1 * p.2)).sum ≤ M * (items.map (fun p => p.2)).sum := by
  induction items with
  | nil => simp
  | cons a t ih =>
    simp only [List.map_cons, List.sum_cons, mul_add]
    have h1 : a.1 * a.2 ≤ M * a.2 :=
      mul_le_mul_of_nonneg_right (hv a (by simp)) (hw a (by simp))
    have h2 := ih (fun p hp => hw p (List.mem_cons_of_mem _ hp))
      (fun p hp => hv p (List.mem_cons_of_mem _ hp))
    linarith

lemma le_sum_map_mul (items : List (ℚ × ℚ)) (m : ℚ)
    (hw : ∀ p ∈ items, 0 ≤ p.2) (hv : ∀ p ∈ items, m ≤ p.1) :
    m * (items.map (fun p => p.2)).sum ≤ (items.map (fun p => p.1 * p.2)).sum := by
  induction items with
  | nil => simp
  | cons a t ih =>
    simp only [List.map_cons, List.sum_cons, mul_add]
    have h1 : m * a.2 ≤ a.1 * a.2 :=
      mul_le_mul_of_nonneg_right (hv a (by simp)) (hw a (by simp))
    have h2 := ih (fun p hp => hw p (List.mem_cons_of_mem _ hp))
      (fun p hp => hv p (List.mem_cons_of_mem _ hp))
    linarith

lemma sum_map_snd_nonneg (items : List (ℚ × ℚ)) (hw : ∀ p ∈ items, 0 ≤ p.2) :
    0 ≤ (items.map (fun p => p.2)).sum := by
  induction items with
  | nil => simp
  | cons a t ih =>
    simp only [List.map_cons, List.sum_cons]
    have h1 := hw a (by simp)
    have h2 := ih (fun p hp => hw p (List.mem_cons_of_mem _ hp))
    linarith

lemma sum_map_snd_pos (items : List (ℚ × ℚ)) (hne : items ≠ [])
    (hw : ∀ p ∈ items, 0 < p.2) : 0 < (items.map (fun p => p.2)).sum := by
  cases items with
  | nil => exact absurd rfl hne
  | cons a t =>
    simp only [List.map_cons, List.sum_cons]
    have h1 := hw a (by simp)
    have h2 := sum_map_snd_nonneg t (fun p hp => le_of_lt (hw p (List.mem_cons_of_mem _ hp)))
    linarith

/-- A weighted average with positive weights lies between any lower and any
upper bound of the averaged values. -/
lemma total_score_of_between (items : List (ℚ × ℚ)) (t m M : ℚ)
    (hw : ∀ p ∈ items, 0 < p.2)
    (hm : ∀ p ∈ items, m ≤ p.1) (hM : ∀ p ∈ items, p.1 ≤ M)
    (ht : total_score_of items = some t) : m ≤ t ∧ t ≤ M := by
  have hne : items ≠ [] := by
    intro h
    rw [h] at ht
    simp [total_score_of] at ht
  have hpos := sum_map_snd_pos items hne hw
  have hteq : t = (items.map (fun p => p.1 * p.2)).sum / (items.map (fun p => p.2)).sum := by
    unfold total_score_of at ht
    rw [if_neg hne] at ht
    exact (Option.some.injEq _ _ ▸ ht).symm
  constructor
  · rw [hteq, le_div_iff₀ hpos]
    exact le_sum_map_mul items m (fun p hp => le_of_lt (hw p hp)) hm
  · rw [hteq, div_le_iff₀ hpos]
    exact sum_map_mul_le items M (fun p hp => le_of_lt (hw p hp)) hM

/-- An item of `weighted_items pairs` comes from one of the pairs whose score
was available. -/
lemma mem_weighted_items {pairs : List (Option ℚ × ℚ)} {p : ℚ × ℚ}
    (hp : p ∈ weighted_items pairs) : (some p.1, p.2) ∈ pairs := by
  unfold weighted_items at hp
  rw [List.mem_filterMap] at hp
  obtain ⟨q, hq, hmap⟩ := hp
  cases hq1 : q.1 with
  | none => rw [hq1] at hmap; simp at hmap
  | some v =>
    rw [hq1] at hmap
    simp only [Option.map_some'] at hmap
    have hpv : (v, q.2) = p := Option.some.inj hmap
    subst hpv
    show (some v, q.2) ∈ pairs
    rw [← hq1]
    exact hq

/-- Every weight attached by `score_weight_pairs` is one of the six fixed
positive constants, and the score component is one of the six scores. -/
lemma mem_score_weight_pairs {s1 s2 s3 s4 s5 s6 : Option ℚ} {p : ℚ × ℚ}
    (hp : p ∈ weighted_items (score_weight_pairs s1 s2 s3 s4 s5 s6)) :
    p.1 ∈ [s1, s2, s3, s4, s5, s6].filterMap id ∧ 0 < p.2 := by
  have h := mem_weighted_items hp
  simp only [score_weight_pairs, List.mem_cons, List.not_mem_nil, or_false,
    Prod.mk.injEq] at h
  constructor
  · rcases h with ⟨h1, _⟩ | ⟨h1, _⟩ | ⟨h1, _⟩ | ⟨h1, _⟩ | ⟨h1, _⟩ | ⟨h1, _⟩ <;>
      simp [List.mem_filterMap] <;>
      [exact Or.inl h1; exact Or.inr (Or.inl h1);
       exact Or.inr (Or.inr (Or.inl h1));
       exact Or.inr (Or.inr (Or.inr (Or.inl h1)));
       exact Or.inr (Or.inr (Or.inr (Or.inr (Or.inl h1))));
       exact Or.inr (Or.inr (Or.inr (Or.inr (Or.inr h1))))]
  · rcases h with ⟨_, h2⟩ | ⟨_, h2⟩ | ⟨_, h2⟩ | ⟨_, h2⟩ | ⟨_, h2⟩ | ⟨_, h2⟩ <;>
      rw [h2] <;> norm_num

/-! ### Helper lemmas about the scorers -/

lemma score_by_threshold_eq_none (u : Option ℚ) (g w : ℚ) :
    score_by_threshold u g w = none ↔ u = none := by
  cases u with
  | none => simp [score_by_threshold]
  | some a =>
    simp only [score_by_threshold]
    refine ⟨fun h => ?_, fun h => by simp at h⟩
    by_cases hg : g ≤ a
    · rw [if_pos hg] at h; simp at h
    · by_cases hw : w ≤ a
      · rw [if_neg hg, if_pos hw] at h; simp at h
      · rw [if_neg hg, if_neg hw] at h; simp at h

lemma score_by_inverse_threshold_eq_none (u : Option ℚ) (g w : ℚ) :
    score_by_inverse_threshold u g w = none ↔ u = none := by
  cases u with
  | none => simp [score_by_inverse_threshold]
  | some a =>
    simp only [score_by_inverse_threshold]
    refine ⟨fun h => ?_, fun h => by simp at h⟩
    by_cases hg : a ≤ g
    · rw [if_pos hg] at h; simp at h
    · by_cases hw : a ≤ w
      · rw [if_neg hg, if_pos hw] at h; simp at h
      · rw [if_neg hg, if_neg hw] at h; simp at h

lemma score_by_threshold_range (u : Option ℚ) (g w x : ℚ)
    (h : score_by_threshold u g w = some x) : x = 100 ∨ x = 70 ∨ x = 40 := by
  cases u with
  | none => simp [score_by_threshold] at h
  | some a =>
    simp only [score_by_threshold] at h
    by_cases hg : g ≤ a
    · rw [if_pos hg] at h; exact Or.inl (Option.some.inj h).symm
    · by_cases hw : w ≤ a
      · rw [if_neg hg, if_pos hw] at h; exact Or.inr (Or.inl (Option.some.inj h).symm)
      · rw [if_neg hg, if_neg hw] at h; exact Or.inr (Or.inr (Option.some.inj h).symm)

lemma score_by_inverse_threshold_range (u : Option ℚ) (g w x : ℚ)
    (h : score_by_inverse_threshold u g w = some x) : x = 100 ∨ x = 70 ∨ x = 40 := by
  cases u with
  | none => simp [score_by_inverse_threshold] at h
  | some a =>
    simp only [score_by_inverse_threshold] at h
    by_cases hg : a ≤ g
    · rw [if_pos hg] at h; exact Or.inl (Option.some.inj h).symm
    · by_cases hw : a ≤ w
      · rw [if_neg hg, if_pos hw] at h; exact Or.inr (Or.inl (Option.some.inj h).symm)
      · rw [if_neg hg, if_neg hw] at h; exact Or.inr (Or.inr (Option.some.inj h).symm)

/-! ### Claim theorems -/

/-- C1: with `good > warn`, the ascending-good scorer returns 100 for
`value ≥ good`, 70 for `warn ≤ value < good` and 40 for `value < warn`; with
`good < warn`, the descending-good scorer returns 100 for `value ≤ good`, 70
for `good < value ≤ warn` and 40 for `value > warn`; each scorer returns the
unavailable marker exactly on the unavailable input, and the input value is
compared against the cutoffs as given (no clamping or rounding). -/
theorem C1_threshold_scorers (v good warn : ℚ) :
    (warn < good →
      (good ≤ v → score_by_threshold (some v) good warn = some 100) ∧
      (warn ≤ v → v < good → score_by_threshold (some v) good warn = some 70) ∧
      (v < warn → score_by_threshold (some v) good warn = some 40)) ∧
    (good < warn →
      (v ≤ good → score_by_inverse_threshold (some v) good warn = some 100) ∧
      (good < v → v ≤ warn → score_by_inverse_threshold (some v) good warn = some 70) ∧
      (warn < v → score_by_inverse_threshold (some v) good warn = some 40)) ∧
    (∀ u : Option ℚ,
      (score_by_threshold u good warn = none ↔ u = none) ∧
      (score_by_inverse_threshold u good warn = none ↔ u = none)) := by
  refine ⟨fun hgw => ⟨fun h => ?_, fun h1 h2 => ?_, fun h => ?_⟩,
          fun hgw => ⟨fun h => ?_, fun h1 h2 => ?_, fun h => ?_⟩,
          fun u => ⟨score_by_threshold_eq_none u good warn,
                    score_by_inverse_threshold_eq_none u good warn⟩⟩
  · simp only [score_by_threshold]
    rw [if_pos h]
  · simp only [score_by_threshold]
    rw [if_neg (not_le.mpr h2), if_pos h1]
  · simp only [score_by_threshold]
    rw [if_neg (not_le.mpr (lt_trans h hgw)), if_neg (not_le.mpr h)]
  · simp only [score_by_inverse_threshold]
    rw [if_pos h]
  · simp only [score_by_inverse_threshold]
    rw [if_neg (not_le.mpr h1), if_pos h2]
  · simp only [score_by_inverse_threshold]
    rw [if_neg (not_le.mpr (lt_trans hgw h)), if_neg (not_le.mpr h)]

/-- Witness for C1 at `v = 1`, `good = 1/2`, `warn = 1/4`. -/
theorem C1_threshold_scorers_witness :
    score_by_threshold (some 1) (1/2) (1/4) = some 100 :=
  ((C1_threshold_scorers 1 (1/2) (1/4)).1 (by norm_num)).1 (by norm_num)

/-- C4: `safe_ratio` is unavailable exactly when the numerator is
unavailable, the denominator is unavailable, or the denominator is exactly 0
(in particular on denominator 0 for every numerator); in every other case it
is the exact quotient `n / d`. -/
theorem C4_safe_ratio (n d : Option ℚ) :
    (safe_ratio n d = none ↔ n = none ∨ d = none ∨ d = some 0) ∧
    (∀ a b : ℚ, b ≠ 0 → safe_ratio (some a) (some b) = some (a / b)) ∧
    (∀ a : ℚ, safe_ratio (some a) (some 0) = none) := by
  refine ⟨?_, fun a b hb => ?_, fun a => ?_⟩
  · cases n with
    | none => simp [safe_ratio]
    | some a =>
      cases d with
      | none => simp [safe_ratio]
      | some b =>
        by_cases hb : b = 0
        · subst hb; simp [safe_ratio]
        · simp [safe_ratio, hb]
  · simp [safe_ratio, hb]
  · simp [safe_ratio]

/-- Witness for C4 at `n = 1`, `d = 2`. -/
theorem C4_safe_ratio_witness : safe_ratio (some 1) (some 2) = some (1/2) :=
  (C4_safe_ratio (some 1) (some 2)).2.1 1 2 (by norm_num)

/-- C5: once the sales sum is available, every unset cost component is
skipped (treated as 0) in the operating-profit subtraction; with all three
cost roles unset the operating margin is `safe_ratio(sales, sales)`; the
gross margin is unavailable as soon as sales or cogs is unavailable. -/
theorem C5_op_margin_asymmetry :
    (∀ (s : ℚ) (cogs fixed labor : Option ℚ),
      op_profit (some s) cogs fixed labor =
        some (s - cogs.getD 0 - fixed.getD 0 - labor.getD 0)) ∧
    (∀ s : ℚ, op_margin (some s) none none none = safe_ratio (some s) (some s)) ∧
    (∀ cogs : Option ℚ, gross_margin none cogs = none) ∧
    (∀ sales : Option ℚ, gross_margin sales none = none) := by
  refine ⟨fun s cogs fixed labor => ?_, fun s => ?_, fun cogs => ?_, fun sales => ?_⟩
  · cases cogs <;> cases fixed <;> cases labor <;> simp [op_profit]
  · simp [op_margin, op_profit]
  · cases cogs <;> simp [gross_margin, gross, safe_ratio]
  · cases sales <;> simp [gross_margin, gross, safe_ratio]

/-- C6 counterexample: a mapped column whose single cell is unparseable has
sum `0`, not the unavailable marker (`fillna(0).sum()` fills NaN with 0). -/
theorem C6_counterexample :
    safe_sum (some [none]) = some 0 ∧ safe_sum (some [none]) ≠ none := by
  constructor <;> simp [safe_sum]

/-- C6 (amended): over a mapped column in which zero cells parse, the mean is
unavailable but the sum is 0; the unavailable marker (not an exception)
propagates through `safe_ratio` and both scorers. -/
theorem C6_unparseable_column (xs : List (Option ℚ)) (h : ∀ c ∈ xs, c = none) :
    safe_mean (some xs) = none ∧ safe_sum (some xs) = some 0 ∧
    (∀ d : Option ℚ, safe_ratio none d = none) ∧
    (∀ good warn : ℚ,
      score_by_threshold none good warn = none ∧
      score_by_inverse_threshold none good warn = none) := by
  refine ⟨?_, ?_, fun d => ?_, fun good warn => ⟨rfl, rfl⟩⟩
  · have hnil : xs.filterMap id = [] := by
      rw [List.filterMap_eq_nil_iff]
      intro a ha
      simpa using h a ha
    simp [safe_mean, hnil]
  · have hz : (xs.map (fun c => c.getD 0)).sum = 0 := by
      apply List.sum_eq_zero
      intro x hx
      rw [List.mem_map] at hx
      obtain ⟨c, hc, rfl⟩ := hx
      rw [h c hc]
      rfl
    simp [safe_sum, hz]
  · cases d <;> simp [safe_ratio]

/-- Witness for the amended C6 at the one-cell unparseable column. -/
theorem C6_unparseable_column_witness : safe_mean (some [none]) = none :=
  (C6_unparseable_column [none] (by simp)).1

/-- C2: the composite score is unavailable iff all six KPI scores are
unavailable; an unavailable score contributes its weight to neither the
numerator nor the denominator (the pair is dropped entirely); otherwise the
composite is exactly the weighted sum over the available scores divided by
the sum of their weights. -/
theorem C2_total_score (s1 s2 s3 s4 s5 s6 : Option ℚ) :
    (total_score s1 s2 s3 s4 s5 s6 = none ↔
      s1 = none ∧ s2 = none ∧ s3 = none ∧ s4 = none ∧ s5 = none ∧ s6 = none) ∧
    (∀ (w : ℚ) (rest : List (Option ℚ × ℚ)),
      total_score_of (weighted_items ((none, w) :: rest)) =
        total_score_of (weighted_items rest)) ∧
    (weighted_items (score_weight_pairs s1 s2 s3 s4 s5 s6) ≠ [] →
      total_score s1 s2 s3 s4 s5 s6 =
        some (((weighted_items (score_weight_pairs s1 s2 s3 s4 s5 s6)).map
            (fun p => p.1 * p.2)).sum /
          ((weighted_items (score_weight_pairs s1 s2 s3 s4 s5 s6)).map
            (fun p => p.2)).sum)) := by
  refine ⟨?_, fun w rest => ?_, fun hne => ?_⟩
  · rw [total_score, total_score_of_eq_none]
    unfold weighted_items
    rw [List.filterMap_eq_nil_iff]
    simp [score_weight_pairs, Option.map_eq_none']
  · simp [weighted_items]
  · simp only [total_score, total_score_of]
    rw [if_neg hne]

/-- Witness for C2 with only the first score available. -/
theorem C2_total_score_witness :
    total_score (some 40) none none none none none =
      some (((weighted_items (score_weight_pairs (some 40) none none none none none)).map
          (fun p => p.1 * p.2)).sum /
        ((weighted_items (score_weight_pairs (some 40) none none none none none)).map
          (fun p => p.2)).sum) :=
  (C2_total_score (some 40) none none none none none).2.2
    (by simp [weighted_items, score_weight_pairs])

/-- C3: a composite score that is available lies between the minimum and the
maximum of the available individual KPI scores (it is a weighted average of
exactly those scores). -/
theorem C3_composite_between (s1 s2 s3 s4 s5 s6 : Option ℚ) (t : ℚ)
    (ht : total_score s1 s2 s3 s4 s5 s6 = some t) :
    ∃ m M : ℚ,
      m ∈ [s1, s2, s3, s4, s5, s6].filterMap id ∧
      M ∈ [s1, s2, s3, s4, s5, s6].filterMap id ∧
      (∀ v ∈ [s1, s2, s3, s4, s5, s6].filterMap id, m ≤ v ∧ v ≤ M) ∧
      m ≤ t ∧ t ≤ M := by
  have hne : weighted_items (score_weight_pairs s1 s2 s3 s4 s5 s6) ≠ [] := by
    intro h
    have hnone : total_score s1 s2 s3 s4 s5 s6 = none := by
      simp [total_score, h, total_score_of]
    rw [hnone] at ht
    exact Option.noConfusion ht
  obtain ⟨p0, hp0⟩ := List.exists_mem_of_ne_nil _ hne
  have hvne : [s1, s2, s3, s4, s5, s6].filterMap id ≠ [] :=
    List.ne_nil_of_mem (mem_score_weight_pairs hp0).1
  obtain ⟨m, hmmem, hmle⟩ := exists_min_mem _ hvne
  obtain ⟨M, hMmem, hMle⟩ := exists_max_mem _ hvne
  have hbounds := total_score_of_between
    (weighted_items (score_weight_pairs s1 s2 s3 s4 s5 s6)) t m M
    (fun p hp => (mem_score_weight_pairs hp).2)
    (fun p hp => hmle p.1 (mem_score_weight_pairs hp).1)
    (fun p hp => hMle p.1 (mem_score_weight_pairs hp).1)
    ht
  exact ⟨m, M, hmmem, hMmem, fun v hv => ⟨hmle v hv, hMle v hv⟩, hbounds.1, hbounds.2⟩

/-- Witness for C3 with a single available score of 100. -/
theorem C3_composite_between_witness :
    ∃ m M : ℚ,
      m ∈ [some 100, none, none, none, none, (none : Option ℚ)].filterMap id ∧
      M ∈ [some 100, none, none, none, none, (none : Option ℚ)].filterMap id ∧
      (∀ v ∈ [some 100, none, none, none, none, (none : Option ℚ)].filterMap id,
        m ≤ v ∧ v ≤ M) ∧
      m ≤ 100 ∧ (100 : ℚ) ≤ M :=
  C3_composite_between (some 100) none none none none none 100
    (by norm_num [total_score, total_score_of, weighted_items, score_weight_pairs,
      List.filterMap])

/-- C10: an available composite score over the six scorer outputs (at the
fixed per-KPI thresholds) lies in [40, 100], because every available scorer
output is 100, 70 or 40. -/
theorem C10_composite_range (gm om dr yr otr invs : Option ℚ) (t : ℚ)
    (ht : total_score
        (score_by_threshold gm (25/100) (15/100))
        (score_by_threshold om (10/100) (5/100))
        (score_by_inverse_threshold dr (1/100) (3/100))
        (score_by_threshold yr (98/100) (95/100))
        (score_by_threshold otr (95/100) (90/100))
        (score_inv_of invs) = some t) :
    40 ≤ t ∧ t ≤ 100 := by
  have key : ∀ p ∈ weighted_items (score_weight_pairs
      (score_by_threshold gm (25/100) (15/100))
      (score_by_threshold om (10/100) (5/100))
      (score_by_inverse_threshold dr (1/100) (3/100))
      (score_by_threshold yr (98/100) (95/100))
      (score_by_threshold otr (95/100) (90/100))
      (score_inv_of invs)),
      (40 ≤ p.1 ∧ p.1 ≤ 100) ∧ 0 < p.2 := by
    intro p hp
    refine ⟨?_, (mem_score_weight_pairs hp).2⟩
    have h1 := (mem_score_weight_pairs hp).1
    rw [List.mem_filterMap] at h1
    obtain ⟨a, ha, hid⟩ := h1
    have hsome : a = some p.1 := hid
    rw [hsome] at ha
    have hval : p.1 = 100 ∨ p.1 = 70 ∨ p.1 = 40 := by
      simp only [List.mem_cons, List.not_mem_nil, or_false] at ha
      rcases ha with h | h | h | h | h | h
      · exact score_by_threshold_range _ _ _ _ h.symm
      · exact score_by_threshold_range _ _ _ _ h.symm
      · exact score_by_inverse_threshold_range _ _ _ _ h.symm
      · exact score_by_threshold_range _ _ _ _ h.symm
      · exact score_by_threshold_range _ _ _ _ h.symm
      · cases invs with
        | none => simp [score_inv_of] at h
        | some v =>
          exact score_by_inverse_threshold_range _ _ _ _
            (by simpa [score_inv_of] using h.symm)
    rcases hval with h | h | h <;> rw [h] <;> norm_num
  exact total_score_of_between _ t 40 100 (fun p hp => (key p hp).2)
    (fun p hp => (key p hp).1.1) (fun p hp => (key p hp).1.2) ht

/-- Witness for C10 with every KPI value equal to 1 (composite 84.4). -/
theorem C10_composite_range_witness : (40 : ℚ) ≤ 422/5 ∧ (422/5 : ℚ) ≤ 100 :=
  C10_composite_range (some 1) (some 1) (some 1) (some 1) (some 1) (some 1) (422/5)
    (by
      norm_num [total_score, total_score_of, weighted_items, score_weight_pairs,
        score_by_threshold, score_by_inverse_threshold, score_inv_of, List.filterMap]
      simp)

/-- `pdDiv` at denominator 0 always produces a sentinel, never a finite
number. -/
lemma pdDiv_zero_denominator (x : ℚ) :
    (pdDiv x 0 = PdVal.inf ∨ pdDiv x 0 = PdVal.ninf ∨ pdDiv x 0 = PdVal.nan) ∧
    ∀ q : ℚ, pdDiv x 0 ≠ PdVal.num q := by
  constructor
  · unfold pdDiv
    rw [if_pos rfl]
    split_ifs <;> simp
  · intro q
    unfold pdDiv
    rw [if_pos rfl]
    split_ifs <;> simp

/-- C7 counterexample: in the breakdown-by-item table, the group `"A"` with
produced sum 0 and defect sum 5 gets per-group defect rate `+inf` (raw pandas
division), not the unavailable marker; the by-line yield behaves the same. -/
theorem C7_counterexample :
    defect_rate_by_item [("A", some 0, some 5)] "A" = PdVal.inf ∧
    yield_by_line [("L", some 3, some 0)] "L" = PdVal.inf := by
  constructor <;>
    norm_num [defect_rate_by_item, yield_by_line, group_sum2, pdDiv, List.foldl]

/-- C7 (amended): the KPI-level ratios (`safe_ratio`) treat a zero
denominator as unavailable, but the breakdown per-group ratios divide the raw
group sums: a group whose summed denominator is 0 yields an IEEE signed
infinity or NaN sentinel (no exception is modelled anywhere: every function
is total), never a finite number and never an unavailable marker. -/
theorem C7_zero_denominator (rows : List (String × Option ℚ × Option ℚ)) (k : String) :
    (∀ n : Option ℚ, safe_ratio n (some 0) = none) ∧
    ((group_sum2 rows k).1 = 0 →
      (defect_rate_by_item rows k = PdVal.inf ∨
        defect_rate_by_item rows k = PdVal.ninf ∨
        defect_rate_by_item rows k = PdVal.nan) ∧
      ∀ q : ℚ, defect_rate_by_item rows k ≠ PdVal.num q) ∧
    ((group_sum2 rows k).2 = 0 →
      (yield_by_line rows k = PdVal.inf ∨
        yield_by_line rows k = PdVal.ninf ∨
        yield_by_line rows k = PdVal.nan) ∧
      ∀ q : ℚ, yield_by_line rows k ≠ PdVal.num q) := by
  refine ⟨fun n => ?_, fun h => ?_, fun h => ?_⟩
  · cases n <;> simp [safe_ratio]
  · simp only [defect_rate_by_item]
    rw [h]
    exact pdDiv_zero_denominator _
  · simp only [yield_by_line]
    rw [h]
    exact pdDiv_zero_denominator _

/-- Witness for the amended C7 at the one-row group with produced sum 0. -/
theorem C7_zero_denominator_witness :
    (group_sum2 [("A", some 0, some 5)] "A").1 = 0 ∧
    (defect_rate_by_item [("A", some 0, some 5)] "A" = PdVal.inf ∨
      defect_rate_by_item [("A", some 0, some 5)] "A" = PdVal.ninf ∨
      defect_rate_by_item [("A", some 0, some 5)] "A" = PdVal.nan) := by
  have h0 : (group_sum2 [("A", some 0, some 5)] "A").1 = 0 := by
    norm_num [group_sum2, List.foldl]
  exact ⟨h0, ((C7_zero_denominator [("A", some 0, some 5)] "A").2.1 h0).1⟩

/-- C8: the on-time rate is unavailable when either date column is unset or
no row has both dates parseable; otherwise it is the fraction, among the rows
where both dates parse, of rows with ship-date ≤ due-date; on the two rows
(due 10, ship 9) and (due 10, ship 15) it is 1/2. -/
theorem C8_on_time_rate_spec :
    (∀ ship : Option (List (Option ℤ)), on_time_rate none ship = none) ∧
    (∀ due : Option (List (Option ℤ)), on_time_rate due none = none) ∧
    (∀ due ship : List (Option ℤ), validPairs due ship = [] →
      on_time_rate (some due) (some ship) = none) ∧
    (∀ due ship : List (Option ℤ), validPairs due ship ≠ [] →
      on_time_rate (some due) (some ship) =
        some ((((validPairs due ship).filter (fun p => p.2 ≤ p.1)).length : ℚ) /
          ((validPairs due ship).length : ℚ))) ∧
    on_time_rate (some [some 10, some 10]) (some [some 9, some 15]) = some (1/2) := by
  refine ⟨fun ship => ?_, fun due => ?_, fun due ship h => ?_, fun due ship h => ?_, ?_⟩
  · cases ship <;> rfl
  · cases due <;> rfl
  · simp only [on_time_rate]
    rw [if_pos h]
  · simp only [on_time_rate]
    rw [if_neg h]
  · norm_num [on_time_rate, validPairs, List.zip, List.zipWith, List.filterMap,
      List.filter]
    simp

/-- Witness for C8 at a one-row table whose dates do not parse. -/
theorem C8_on_time_rate_witness :
    on_time_rate (some [(none : Option ℤ)]) (some [(none : Option ℤ)]) = none :=
  C8_on_time_rate_spec.2.2.1 [none] [none] rfl

/-- C9: each advisory domain always emits at least one tip; every firing rule
contributes its tip (no short-circuiting between the two rules of a domain);
and when no rule fires — in particular on an all-unavailable input — the
domain emits exactly the one fixed positive-status tip. -/
theorem C9_tips_engine :
    (∀ gm om : Option ℚ, tips_profitability gm om ≠ []) ∧
    (∀ dr yr : Option ℚ, tips_quality dr yr ≠ []) ∧
    (∀ otr inv : Option ℚ, tips_delivery otr inv ≠ []) ∧
    (∀ (g : ℚ) (om : Option ℚ), g < 15/100 →
      tip_gross_margin ∈ tips_profitability (some g) om) ∧
    (∀ (gm : Option ℚ) (o : ℚ), o < 5/100 →
      tip_op_margin ∈ tips_profitability gm (some o)) ∧
    (∀ (d : ℚ) (yr : Option ℚ), 3/100 < d →
      tip_defect ∈ tips_quality (some d) yr) ∧
    (∀ (dr : Option ℚ) (y : ℚ), y < 95/100 →
      tip_yield ∈ tips_quality dr (some y)) ∧
    (∀ (r : ℚ) (inv : Option ℚ), r < 90/100 →
      tip_otd ∈ tips_delivery (some r) inv) ∧
    (∀ (otr : Option ℚ) (v : ℚ), 30/100 < v →
      tip_inventory ∈ tips_delivery otr (some v)) ∧
    (∀ gm om : Option ℚ,
      fires_lt gm (15/100) = false → fires_lt om (5/100) = false →
      tips_profitability gm om = [tip_profit_ok]) ∧
    (∀ dr yr : Option ℚ,
      fires_gt dr (3/100) = false → fires_lt yr (95/100) = false →
      tips_quality dr yr = [tip_quality_ok]) ∧
    (∀ otr inv : Option ℚ,
      fires_lt otr (90/100) = false → fires_gt inv (30/100) = false →
      tips_delivery otr inv = [tip_delivery_ok]) ∧
    tips_profitability none none = [tip_profit_ok] ∧
    tips_quality none none = [tip_quality_ok] ∧
    tips_delivery none none = [tip_delivery_ok] := by
  have hne : ∀ (l : List String) (f : String), (if l = [] then [f] else l) ≠ [] := by
    intro l f
    split <;> simp_all
  refine ⟨fun gm om => ?_, fun dr yr => ?_, fun otr inv => ?_,
          fun g om h => ?_, fun gm o h => ?_, fun d yr h => ?_,
          fun dr y h => ?_, fun r inv h => ?_, fun otr v h => ?_,
          fun gm om h1 h2 => ?_, fun dr yr h1 h2 => ?_, fun otr inv h1 h2 => ?_,
          ?_, ?_, ?_⟩
  · simp only [tips_profitability]
    exact hne _ _
  · simp only [tips_quality]
    exact hne _ _
  · simp only [tips_delivery]
    exact hne _ _
  · simp [tips_profitability, fires_lt, h]
  · simp [tips_profitability, fires_lt, h]
  · simp [tips_quality, fires_gt, h]
  · simp [tips_quality, fires_lt, h]
  · simp [tips_delivery, fires_lt, h]
  · simp [tips_delivery, fires_gt, h]
  · simp [tips_profitability, h1, h2]
  · simp [tips_quality, h1, h2]
  · simp [tips_delivery, h1, h2]
  · simp [tips_profitability, fires_lt]
  · simp [tips_quality, fires_lt, fires_gt]
  · simp [tips_delivery, fires_lt, fires_gt]

/-- Witness for C9: at the healthy available input (gross margin 1/2,
operating margin 1/2) no profitability rule fires and the domain emits
exactly the fallback tip. -/
theorem C9_tips_engine_witness :
    tips_profitability (some (1/2)) (some (1/2)) = [tip_profit_ok] :=
  C9_tips_engine.2.2.2.2.2.2.2.2.2.1 (some (1/2)) (some (1/2))
    (by norm_num [fires_lt]) (by norm_num [fires_lt])

end App
